import Mathlib

/-!
# Verification of `aiagents-stock` monitoring core

Shallow embedding of the behaviour specified for the repository
`samwancd/aiagents-stock`, covering:

* the A-share trading-session classifier
  (`smart_monitor_deepseek.py`: `is_trading_time`, `get_trading_session`);
* the monitored-position store
  (`low_price_bull_monitor.py`: `add_stock`, `remove_stock`,
  `update_holding_days`);
* the sell-alert store
  (`low_price_bull_monitor.py`: `add_sell_alert`, `clear_old_alerts`;
  `monitor_db.py`: `has_recent_notification`);
* the LLM decision parser and decision gate
  (`smart_monitor_deepseek.py`: `_parse_decision`,
  `analyze_stock_and_decide`).

Timestamps are modelled as a weekday number (0 = Monday … 6 = Sunday)
together with seconds since midnight, Beijing wall clock; calendar dates as
(year, month, day) triples with the proleptic-Gregorian ordinal used by
Python's `date.toordinal`; SQLite tables as Lean lists of row structures;
Python dicts produced by `json.loads` as insertion-ordered association
lists; REAL columns and JSON numbers as rationals.
-/

set_option autoImplicit false

namespace AiAgentsStock

/-! ## Trading-session classifier (`smart_monitor_deepseek.py`)

A wall-clock time of day is seconds since midnight (`datetime.time`
compares component-wise, which on a fixed day is exactly numeric order of
seconds-since-midnight at second resolution).  `hm h m` abbreviates the
Python `time(h, m)` constants used in the source. -/

/-- Seconds since midnight for `time(h, m)`. -/
def hm (h m : Nat) : Nat := h * 3600 + m * 60

/-- The session record returned by `get_trading_session`
(fields `session`, `volatility`, `recommendation`, `beijing_hour`,
`can_trade`). -/
structure SessionInfo where
  session : String
  volatility : String
  recommendation : String
  beijing_hour : Nat
  can_trade : Bool
  deriving Repr, DecidableEq

/-- Embedding of `SmartMonitorDeepSeek.is_trading_time`:
weekday `wd` (0 = Monday), time of day `t` in seconds since midnight.
Weekends are excluded, then the morning session 9:30–11:30 and the
afternoon session 13:00–15:00 (both end-inclusive) count as tradable. -/
def is_trading_time (wd t : Nat) : Bool :=
  if wd ≥ 5 then
    false
  else
    (hm 9 30 ≤ t ∧ t ≤ hm 11 30) ∨ (hm 13 0 ≤ t ∧ t ≤ hm 15 0)

/-- Embedding of `SmartMonitorDeepSeek.get_trading_session`: the
if/elif chain over the Beijing wall clock.  `beijing_hour` is
`now.hour = t / 3600`. -/
def get_trading_session (wd t : Nat) : SessionInfo :=
  if wd ≥ 5 then
    { session := "休市", volatility := "none",
      recommendation := "周末不可交易",
      beijing_hour := t / 3600, can_trade := false }
  else if hm 9 0 ≤ t ∧ t < hm 9 30 then
    { session := "集合竞价", volatility := "high",
      recommendation := "可观察盘面情绪，准备开盘交易",
      beijing_hour := t / 3600, can_trade := false }
  else if hm 9 30 ≤ t ∧ t ≤ hm 11 30 then
    { session := "上午盘", volatility := "high",
      recommendation := "交易活跃，波动较大",
      beijing_hour := t / 3600, can_trade := true }
  else if hm 11 30 < t ∧ t < hm 13 0 then
    { session := "午间休市", volatility := "none",
      recommendation := "不可交易，可分析上午盘面",
      beijing_hour := t / 3600, can_trade := false }
  else if hm 13 0 ≤ t ∧ t ≤ hm 15 0 then
    if t ≥ hm 14 30 then
      { session := "尾盘", volatility := "high",
        recommendation := "尾盘波动大，谨慎操作",
        beijing_hour := t / 3600, can_trade := true }
    else
      { session := "下午盘", volatility := "medium",
        recommendation := "波动趋缓，适合布局",
        beijing_hour := t / 3600, can_trade := true }
  else
    { session := "盘后", volatility := "none",
      recommendation := "收盘后，可复盘分析",
      beijing_hour := t / 3600, can_trade := false }

/-! ## Calendar dates (`datetime.date`)

`update_holding_days` computes `(today - buy_date).days`, the signed
whole-day difference of two calendar dates.  Python realises this through
the proleptic-Gregorian ordinal (`date.toordinal`), which we embed
directly: `toordinal ⟨1, 1, 1⟩ = 1`. -/

/-- A calendar date (proleptic Gregorian). -/
structure Date where
  year : Nat
  month : Nat
  day : Nat
  deriving Repr, DecidableEq

/-- Gregorian leap-year test. -/
def isLeap (y : Nat) : Bool :=
  y % 4 = 0 ∧ (y % 100 ≠ 0 ∨ y % 400 = 0)

/-- Number of days in a month. -/
def daysInMonth (y m : Nat) : Nat :=
  if m = 2 then (if isLeap y then 29 else 28)
  else if m = 4 ∨ m = 6 ∨ m = 9 ∨ m = 11 then 30
  else 31

/-- Days in year `y` strictly before the first of month `m`. -/
def daysBeforeMonth (y m : Nat) : Nat :=
  (match m with
   | 1 => 0 | 2 => 31 | 3 => 59 | 4 => 90 | 5 => 120 | 6 => 151
   | 7 => 181 | 8 => 212 | 9 => 243 | 10 => 273 | 11 => 304 | _ => 334)
  + (if 3 ≤ m ∧ isLeap y then 1 else 0)

/-- Days in all years `1, …, y` (the ordinal of 31 December of year `y`). -/
def prefixDays (y : Nat) : Nat :=
  365 * y + y / 4 + y / 400 - y / 100

/-- Embedding of `date.toordinal`: day number of a date counting 0001-01-01 as day 1. -/
def toordinal (d : Date) : Nat :=
  prefixDays (d.year - 1) + daysBeforeMonth d.year d.month + d.day

/-- A structurally valid calendar date. -/
def Date.Valid (d : Date) : Prop :=
  1 ≤ d.year ∧ 1 ≤ d.month ∧ d.month ≤ 12 ∧
    1 ≤ d.day ∧ d.day ≤ daysInMonth d.year d.month

instance (d : Date) : Decidable d.Valid := by
  unfold Date.Valid; infer_instance

/-- Calendar order on dates (lexicographic year, month, day). -/
def dateLe (a b : Date) : Prop :=
  a.year < b.year ∨
    (a.year = b.year ∧
      (a.month < b.month ∨ (a.month = b.month ∧ a.day ≤ b.day)))

instance (a b : Date) : Decidable (dateLe a b) := by
  unfold dateLe; infer_instance

/-! ## The monitored-position store (`low_price_bull_monitor.py`)

The `monitored_stocks` table is a list of rows; `status` is `"holding"`
or `"removed"`.  `buy_date` is stored (and later re-parsed) as an
ISO-formatted calendar date, embedded here as the date value itself. -/

/-- A row of the `monitored_stocks` table. -/
structure StockRow where
  stock_code : String
  stock_name : String
  buy_price : ℚ
  buy_date : Date
  holding_days : Int
  status : String
  add_time : String
  remove_time : Option String
  remove_reason : Option String
  deriving Repr, DecidableEq

/-- Does the store hold a row with this code and status `"holding"`?
(the `SELECT id … WHERE stock_code = ? AND status = 'holding'` check). -/
def hasHolding (store : List StockRow) (code : String) : Bool :=
  store.any (fun r => r.stock_code = code ∧ r.status = "holding")

/-- Embedding of `LowPriceBullMonitor.add_stock`: refuse when a holding
row with the same code exists, otherwise insert a fresh holding row. -/
def add_stock (store : List StockRow) (code name : String) (price : ℚ)
    (buyDate : Date) (now : String) : Bool × String × List StockRow :=
  if hasHolding store code then
    (false, "股票 " ++ code ++ " 已在监控列表中", store)
  else
    (true, "成功添加 " ++ code ++ " " ++ name ++ " 到监控列表",
      store ++ [{ stock_code := code, stock_name := name, buy_price := price,
                  buy_date := buyDate, holding_days := 0, status := "holding",
                  add_time := now, remove_time := none,
                  remove_reason := none }])

/-- The row update applied by `remove_stock` to rows matching
`stock_code = code AND status = 'holding'`. -/
def markRemoved (code reason now : String) (r : StockRow) : StockRow :=
  if r.stock_code = code ∧ r.status = "holding" then
    { r with status := "removed", remove_time := some now,
             remove_reason := some reason }
  else r

/-- Embedding of `LowPriceBullMonitor.remove_stock`: fail when no holding
row exists; otherwise first delete every `(code, "removed")` row, then
turn the holding row(s) for `code` into `"removed"` rows carrying the
reason and timestamp. -/
def remove_stock (store : List StockRow) (code reason now : String) :
    Bool × String × List StockRow :=
  if hasHolding store code then
    (true, "成功移除 " ++ code,
      (store.filter
        (fun r => ¬(r.stock_code = code ∧ r.status = "removed"))).map
        (markRemoved code reason now))
  else
    (false, "股票 " ++ code ++ " 不在监控列表中", store)

/-- Python's `(today - buy).days` for two calendar dates, via Python ordinals. -/
def holdingDaysBetween (buy today : Date) : Int :=
  (toordinal today : Int) - (toordinal buy : Int)

/-- Embedding of `LowPriceBullMonitor.update_holding_days`: every holding
row gets `holding_days = (today - buy_date).days`; other rows are left
alone. -/
def update_holding_days (store : List StockRow) (today : Date) :
    List StockRow :=
  store.map (fun r =>
    if r.status = "holding" then
      { r with holding_days := holdingDaysBetween r.buy_date today }
    else r)

/-- An operation on the position store, for invariant claims. -/
inductive StoreOp where
  | addOp (code name : String) (price : ℚ) (buyDate : Date) (now : String)
  | removeOp (code reason now : String)

/-- Run one operation, keeping only the resulting store. -/
def applyOp (store : List StockRow) : StoreOp → List StockRow
  | .addOp code name price buyDate now =>
      (add_stock store code name price buyDate now).2.2
  | .removeOp code reason now =>
      (remove_stock store code reason now).2.2

/-- Run a sequence of operations from the empty store. -/
def applyOps (ops : List StoreOp) : List StockRow :=
  ops.foldl applyOp []

/-- Number of rows for `code` with status `"holding"`. -/
def countHolding (store : List StockRow) (code : String) : Nat :=
  store.countP (fun r => r.stock_code = code ∧ r.status = "holding")

/-- A concrete holding row, used to instantiate hypotheses of the
store theorems. -/
def sampleHoldingRow : StockRow :=
  { stock_code := "600519", stock_name := "贵州茅台", buy_price := 1650,
    buy_date := ⟨2026, 10, 1⟩, holding_days := 0, status := "holding",
    add_time := "2026-10-01 10:00:00", remove_time := none,
    remove_reason := none }

/-- All row statuses are `"holding"` or `"removed"` (true of every store
the code can build, since `status` is only ever the column default or the
update target). -/
def StoreWf (store : List StockRow) : Prop :=
  ∀ r ∈ store, r.status = "holding" ∨ r.status = "removed"

/-! ## The sell-alert store (`low_price_bull_monitor.py`) and the
notification cool-down (`monitor_db.py`)

Rows of the `sell_alerts` table.  `alert_time` is the formatted timestamp
string `"YYYY-MM-DD HH:MM:SS"`; SQLite compares these strings
lexicographically, which we model with `String` order.  `is_sent` is the
`INTEGER DEFAULT 0` flag. -/

/-- A row of the `sell_alerts` table. -/
structure AlertRow where
  stock_code : String
  stock_name : String
  alert_type : String
  alert_reason : String
  current_price : Option ℚ
  ma5 : Option ℚ
  ma20 : Option ℚ
  holding_days : Option Int
  alert_time : String
  is_sent : Bool
  deriving Repr, DecidableEq

/-- Embedding of `LowPriceBullMonitor.add_sell_alert`: refuse (inserting
nothing) when an unsent alert with the same `(stock_code, alert_type)`
pair exists, otherwise append exactly one new unsent alert stamped
`now`. -/
def add_sell_alert (alerts : List AlertRow) (code name ty reason : String)
    (price ma5 ma20 : Option ℚ) (hdays : Option Int) (now : String) :
    Bool × List AlertRow :=
  if alerts.any (fun a => a.stock_code = code ∧ a.alert_type = ty ∧
      a.is_sent = false) then
    (false, alerts)
  else
    (true, alerts ++
      [{ stock_code := code, stock_name := name,
         alert_type := ty, alert_reason := reason, current_price := price,
         ma5 := ma5, ma20 := ma20, holding_days := hdays,
         alert_time := now, is_sent := false }])

/-- Lexicographic order on character lists (SQLite's ordering of the
text timestamps, which are plain ASCII). -/
def charListLt : List Char → List Char → Bool
  | [], [] => false
  | [], _ :: _ => true
  | _ :: _, [] => false
  | a :: as, b :: bs =>
      if a < b then true else if b < a then false else charListLt as bs

/-- String comparison used for `alert_time < cutoff`. -/
def strLt (a b : String) : Bool :=
  charListLt a.data b.data

/-- Embedding of `LowPriceBullMonitor.clear_old_alerts`: delete every
alert with `alert_time < cutoff AND is_sent = 1`, where `cutoff` is the
date `days` days before now, formatted `"YYYY-MM-DD"` (string
comparison, as in SQLite). -/
def clear_old_alerts (alerts : List AlertRow) (cutoff : String) :
    List AlertRow :=
  alerts.filter (fun a => ¬(strLt a.alert_time cutoff = true ∧
    a.is_sent = true))

/-- A row of the `notifications` table of `monitor_db.py` (the fields the
cool-down query reads).  `triggered_at` is modelled in minutes. -/
structure NotificationRow where
  stock_id : Int
  ntype : String
  triggered_at : Int
  sent : Bool
  deriving Repr, DecidableEq

/-- Embedding of `MonitorDatabase.has_recent_notification`: is there any
notification for `(stock_id, ntype)` triggered strictly within the last
`minutes` minutes?  The query does not look at the `sent` flag. -/
def has_recent_notification (notifs : List NotificationRow)
    (stockId : Int) (ty : String) (minutes : Int) (now : Int) : Bool :=
  notifs.any (fun n => n.stock_id = stockId ∧ n.ntype = ty ∧
    now - minutes < n.triggered_at)

/-- A concrete already-sent alert, used to instantiate the alert
theorems. -/
def sampleSentAlert : AlertRow :=
  { stock_code := "600519", stock_name := "贵州茅台",
    alert_type := "ma_cross", alert_reason := "MA5下穿MA20",
    current_price := some 1650, ma5 := some 1640, ma20 := some 1660,
    holding_days := some 3, alert_time := "2026-10-12 09:30:00",
    is_sent := true }

/-! ## JSON values and Python dicts (`json.loads`)

`_parse_decision` runs `json.loads` over a heuristically extracted slice
of the model reply.  We embed JSON values with rationals for numbers
(Python's int/float distinction and float rounding are immaterial to the
decision fields), `List Char` for decoded strings, and insertion-ordered
association lists for dicts (`d[k] = v` keeps the first position of `k`
and the last value, which is exactly `dictInsert`).  A decoded lone
surrogate (legal for Python's `chr`) has no `Char` representative and is
modelled by `Char.ofNat`'s fallback; no claim depends on it. -/

/-- A parsed JSON value (Python's `json.loads` result). -/
inductive JValue where
  | jnull
  | jbool (b : Bool)
  | jnum (q : ℚ)
  | jnan
  | jinf (neg : Bool)
  | jstr (s : List Char)
  | jarr (xs : List JValue)
  | jobj (fields : List (List Char × JValue))

/-- A Python dict with string keys, in insertion order. -/
abbrev PyDict := List (List Char × JValue)

/-- Assignment `d[k] = v`: update the value in place if the key exists, else append. -/
def dictInsert (d : PyDict) (k : List Char) (v : JValue) : PyDict :=
  match d with
  | [] => [(k, v)]
  | (k', v') :: rest =>
      if k' = k then (k', v) :: rest else (k', v') :: dictInsert rest k v

/-- Lookup `d.get(k)`: the value at the first (unique) occurrence of `k`. -/
def dictGet (d : PyDict) (k : List Char) : Option JValue :=
  match d with
  | [] => none
  | (k', v') :: rest => if k' = k then some v' else dictGet rest k

/-- Membership `k in d`. -/
def dictContains (d : PyDict) (k : List Char) : Bool :=
  (dictGet d k).isSome

/-- Python's `d.setdefault(k, v)`: append `(k, v)` iff `k` is absent. -/
def dictSetdefault (d : PyDict) (k : List Char) (v : JValue) : PyDict :=
  if dictContains d k then d else d ++ [(k, v)]

/-- JSON inter-token whitespace (`json.decoder.WHITESPACE_STR`). -/
def isJsonWs (c : Char) : Bool :=
  c = ' ' ∨ c = '\t' ∨ c = '\n' ∨ c = '\r'

/-- Skip JSON whitespace. -/
def skipWs (cs : List Char) : List Char :=
  cs.dropWhile isJsonWs

/-- ASCII decimal digit. -/
def isDigitCh (c : Char) : Bool := '0' ≤ c ∧ c ≤ '9'

/-- Value of a digit run. -/
def digitsToNat (ds : List Char) : Nat :=
  ds.foldl (fun n c => n * 10 + (c.toNat - 48)) 0

/-- Value of a hex digit, if any. -/
def hexVal (c : Char) : Option Nat :=
  if '0' ≤ c ∧ c ≤ '9' then some (c.toNat - 48)
  else if 'a' ≤ c ∧ c ≤ 'f' then some (c.toNat - 87)
  else if 'A' ≤ c ∧ c ≤ 'F' then some (c.toNat - 55)
  else none

/-- Exactly four hex digits (`_decode_uXXXX`). -/
def parseHex4 (cs : List Char) : Option (Nat × List Char) :=
  match cs with
  | c1 :: c2 :: c3 :: c4 :: rest =>
      match hexVal c1, hexVal c2, hexVal c3, hexVal c4 with
      | some h1, some h2, some h3, some h4 =>
          some (((h1 * 16 + h2) * 16 + h3) * 16 + h4, rest)
      | _, _, _, _ => none
  | _ => none

/-- Single-character escapes (`json.decoder.BACKSLASH`). -/
def escapeChar (c : Char) : Option Char :=
  if c = '"' then some '"'
  else if c = '\\' then some '\\'
  else if c = '/' then some '/'
  else if c = 'b' then some (Char.ofNat 8)
  else if c = 'f' then some (Char.ofNat 12)
  else if c = 'n' then some '\n'
  else if c = 'r' then some '\r'
  else if c = 't' then some '\t'
  else none

/-- Combine a UTF-16 surrogate pair. -/
def combineSurrogates (u1 u2 : Nat) : Char :=
  Char.ofNat (0x10000 + ((u1 - 0xd800) * 0x400 + (u2 - 0xdc00)))

/-- Body of a JSON string after the opening quote (`py_scanstring`,
strict mode: raw control characters are an error).  Fuelled; each step
consumes at least one character, so `cs.length + 1` fuel is exact. -/
def scanString : Nat → List Char → Option (List Char × List Char)
  | 0, _ => none
  | fuel + 1, cs =>
      match cs with
      | [] => none
      | c :: rest =>
          if c = '"' then some ([], rest)
          else if c = '\\' then
            match rest with
            | [] => none
            | e :: rest2 =>
                if e = 'u' then
                  match parseHex4 rest2 with
                  | none => none
                  | some (u, rest6) =>
                      if 0xd800 ≤ u ∧ u ≤ 0xdbff then
                        match rest6 with
                        | '\\' :: 'u' :: rest8 =>
                            match parseHex4 rest8 with
                            | none => none
                            | some (u2, rest12) =>
                                if 0xdc00 ≤ u2 ∧ u2 ≤ 0xdfff then
                                  (scanString fuel rest12).map
                                    (fun p =>
                                      (combineSurrogates u u2 :: p.1, p.2))
                                else
                                  (scanString fuel rest6).map
                                    (fun p => (Char.ofNat u :: p.1, p.2))
                        | _ =>
                            (scanString fuel rest6).map
                              (fun p => (Char.ofNat u :: p.1, p.2))
                      else
                        (scanString fuel rest6).map
                          (fun p => (Char.ofNat u :: p.1, p.2))
                else
                  match escapeChar e with
                  | none => none
                  | some ec =>
                      (scanString fuel rest2).map
                        (fun p => (ec :: p.1, p.2))
          else if c.toNat < 0x20 then none
          else (scanString fuel rest).map (fun p => (c :: p.1, p.2))

/-- Embedding of `json.scanner.NUMBER_RE`: `(-?(?:0|[1-9]\d*))(\.\d+)?([eE][-+]?\d+)?`.
Returns the numeric value and the rest of the input; fails when no prefix
matches (the regex never matches fewer characters than possible). -/
def parseNumber (cs : List Char) : Option (ℚ × List Char) :=
  let (neg, cs1) :=
    match cs with
    | '-' :: rest => (true, rest)
    | _ => (false, cs)
  match cs1 with
  | [] => none
  | c :: rest =>
      if ¬ isDigitCh c then none
      else
        let (intDs, afterInt) :=
          if c = '0' then ([c], rest)
          else (c :: rest.takeWhile isDigitCh, rest.dropWhile isDigitCh)
        let (fracDs, afterFrac) :=
          match afterInt with
          | '.' :: ds =>
              let f := ds.takeWhile isDigitCh
              if f = [] then ([], afterInt)
              else (f, ds.dropWhile isDigitCh)
          | _ => ([], afterInt)
        let (expVal, afterExp) :=
          match afterFrac with
          | e :: es =>
              if e = 'e' ∨ e = 'E' then
                let (esign, es1) :=
                  match es with
                  | '+' :: t => ((1 : Int), t)
                  | '-' :: t => ((-1 : Int), t)
                  | _ => ((1 : Int), es)
                let eds := es1.takeWhile isDigitCh
                if eds = [] then ((0 : Int), afterFrac)
                else (esign * digitsToNat eds, es1.dropWhile isDigitCh)
              else ((0 : Int), afterFrac)
          | [] => ((0 : Int), afterFrac)
        let mant : Nat := digitsToNat (intDs ++ fracDs)
        let exponent : Int := expVal - fracDs.length
        let mag : ℚ :=
          if 0 ≤ exponent then ((mant * 10 ^ exponent.toNat : Nat) : ℚ)
          else mkRat mant (10 ^ (-exponent).toNat)
        some (if neg then -mag else mag, afterExp)

mutual

/-- Embedding of `py_make_scanner`'s `_scan_once`: dispatch on the first
character; no leading whitespace is skipped here (the callers do).
Fuelled: every recursive call follows the consumption of at least one
character, so `input length + 1` fuel never runs out. -/
def scanValue : Nat → List Char → Option (JValue × List Char)
  | 0, _ => none
  | fuel + 1, cs =>
      match cs with
      | [] => none
      | c :: rest =>
          if c = '"' then
            (scanString (rest.length + 1) rest).map
              (fun p => (JValue.jstr p.1, p.2))
          else if c = '\x7b' then scanObject fuel rest
          else if c = '[' then scanArray fuel rest
          else if ['n', 'u', 'l', 'l'].isPrefixOf cs then
            some (JValue.jnull, cs.drop 4)
          else if ['t', 'r', 'u', 'e'].isPrefixOf cs then
            some (JValue.jbool true, cs.drop 4)
          else if ['f', 'a', 'l', 's', 'e'].isPrefixOf cs then
            some (JValue.jbool false, cs.drop 5)
          else if ['N', 'a', 'N'].isPrefixOf cs then
            some (JValue.jnan, cs.drop 3)
          else if ['I', 'n', 'f', 'i', 'n', 'i', 't', 'y'].isPrefixOf cs then
            some (JValue.jinf false, cs.drop 8)
          else if ['-', 'I', 'n', 'f', 'i', 'n', 'i', 't',
              'y'].isPrefixOf cs then
            some (JValue.jinf true, cs.drop 9)
          else
            (parseNumber cs).map (fun p => (JValue.jnum p.1, p.2))

/-- Embedding of `json.decoder.JSONArray` after the `[`. -/
def scanArray : Nat → List Char → Option (JValue × List Char)
  | 0, _ => none
  | fuel + 1, cs =>
      match skipWs cs with
      | ']' :: rest => some (JValue.jarr [], rest)
      | cs1 => scanArrayItems fuel cs1 []

/-- Elements of a JSON array (one value parsed per step). -/
def scanArrayItems : Nat → List Char → List JValue →
    Option (JValue × List Char)
  | 0, _, _ => none
  | fuel + 1, cs, acc =>
      match scanValue fuel cs with
      | none => none
      | some (v, r) =>
          match skipWs r with
          | ']' :: r2 => some (JValue.jarr (acc ++ [v]), r2)
          | ',' :: r2 => scanArrayItems fuel (skipWs r2) (acc ++ [v])
          | _ => none

/-- Embedding of `json.decoder.JSONObject` after the `{`. -/
def scanObject : Nat → List Char → Option (JValue × List Char)
  | 0, _ => none
  | fuel + 1, cs =>
      match skipWs cs with
      | '\x7d' :: rest => some (JValue.jobj [], rest)
      | cs1 => scanObjectItems fuel cs1 []

/-- Members of a JSON object: a double-quoted key, `:`, a value;
`d[key] = value` semantics via `dictInsert`. -/
def scanObjectItems : Nat → List Char → PyDict →
    Option (JValue × List Char)
  | 0, _, _ => none
  | fuel + 1, cs, acc =>
      match cs with
      | '"' :: rest =>
          match scanString (rest.length + 1) rest with
          | none => none
          | some (key, r1) =>
              match skipWs r1 with
              | ':' :: r2 =>
                  match scanValue fuel (skipWs r2) with
                  | none => none
                  | some (v, r3) =>
                      match skipWs r3 with
                      | '\x7d' :: r4 =>
                          some (JValue.jobj (dictInsert acc key v), r4)
                      | ',' :: r4 =>
                          match skipWs r4 with
                          | '"' :: _ =>
                              scanObjectItems fuel (skipWs r4)
                                (dictInsert acc key v)
                          | _ => none
                      | _ => none
              | _ => none
      | _ => none

end

/-- Embedding of `json.loads`: skip leading whitespace, scan one value, and require
only whitespace to remain (else `Extra data`).  `none` is any
`JSONDecodeError`. -/
def json_loads (cs : List Char) : Option JValue :=
  let cs1 := skipWs cs
  match scanValue (cs1.length + 1) cs1 with
  | none => none
  | some (v, rest) => if skipWs rest = [] then some v else none

/-! ## Payload extraction and decision parsing
(`SmartMonitorDeepSeek._parse_decision`) -/

/-- Python's `str.lower()` on the ASCII range (the fence markers searched for are
ASCII; Python's full-Unicode lowering agrees there). -/
def toLowerAscii (c : Char) : Char :=
  if 'A' ≤ c ∧ c ≤ 'Z' then Char.ofNat (c.toNat + 32) else c

/-- Index of the first occurrence of `needle` in `hay`. -/
def findSub (needle : List Char) : List Char → Option Nat
  | [] => if needle.isEmpty then some 0 else none
  | c :: rest =>
      if needle.isPrefixOf (c :: rest) then some 0
      else (findSub needle rest).map (· + 1)

/-- Python's `s.find(sub, start)`: first index ≥ `start`, or `-1`. -/
def pyFind (s sub : List Char) (start : Nat) : Int :=
  match findSub sub (s.drop start) with
  | some k => ((start + k : Nat) : Int)
  | none => -1

/-- Python's `s.rfind(c)`: last index of the character, or `-1`. -/
def pyRFindChar (s : List Char) (c : Char) : Int :=
  match findSub [c] s.reverse with
  | some k => ((s.length - 1 - k : Nat) : Int)
  | none => -1

/-- Slicing `s[start:stop]` with Python's negative-index and clamping rules. -/
def pySlice (s : List Char) (start stop : Int) : List Char :=
  let n : Int := s.length
  let st := if start < 0 then max 0 (n + start) else min start n
  let en := if stop < 0 then max 0 (n + stop) else min stop n
  (s.take en.toNat).drop st.toNat

/-- Whitespace stripped by `str.strip()` (the ASCII set; the replies'
fences and payloads are delimited by these). -/
def isStripWs (c : Char) : Bool :=
  c = ' ' ∨ c = '\t' ∨ c = '\n' ∨ c = '\r' ∨
    c = Char.ofNat 11 ∨ c = Char.ofNat 12

/-- Python's `s.strip()`. -/
def pyStrip (s : List Char) : List Char :=
  ((s.dropWhile isStripWs).reverse.dropWhile isStripWs).reverse

/-- The extraction heuristic of `_parse_decision`: prefer a ```` ```json ````
fence (located case-insensitively, sliced from the original string), then
any ```` ``` ```` fence (content after its first newline), then the span
from the first `{` to the last `}`, else the whole reply.  Each branch
reproduces the source's `find`/`rfind` index arithmetic, including the
`-1` results that slice away the final character when a closing fence is
missing. -/
def extract_json_str (resp : List Char) : List Char :=
  let lower := resp.map toLowerAscii
  let bt := Char.ofNat 96
  let jsonFence := [bt, bt, bt, 'j', 's', 'o', 'n']
  let tick3 := [bt, bt, bt]
  if (findSub jsonFence lower).isSome then
    let json_start : Int := pyFind lower jsonFence 0 + 7
    let json_end : Int := pyFind resp tick3 json_start.toNat
    pyStrip (pySlice resp json_start json_end)
  else if (findSub tick3 resp).isSome then
    let first_tick : Int := pyFind resp tick3 0
    let json_start : Int := pyFind resp ['\n'] first_tick.toNat + 1
    let json_end : Int := pyFind resp tick3 json_start.toNat
    pyStrip (pySlice resp json_start json_end)
  else if resp.contains '\x7b' ∧ resp.contains '\x7d' then
    let start_idx : Int := pyFind resp ['\x7b'] 0
    let end_idx : Int := pyRFindChar resp '\x7d' + 1
    pySlice resp start_idx end_idx
  else resp

/-- The required fields of a decision payload. -/
def requiredFields : List (List Char) :=
  ["action".data, "confidence".data, "reasoning".data]

/-- The success path of `_parse_decision`: extract, `json.loads`, check
the result is a dict containing every required field.  Any other outcome
(including non-dict payloads, which fail Python's `in`/`setdefault`
steps) lands in the fallback. -/
def decodeDecision (resp : List Char) : Option PyDict :=
  match json_loads (extract_json_str resp) with
  | some (JValue.jobj d) =>
      if requiredFields.all (fun k => dictContains d k) then some d
      else none
  | _ => none

/-- The four `setdefault` calls on a successfully parsed decision. -/
def withDefaults (d : PyDict) : PyDict :=
  dictSetdefault
    (dictSetdefault
      (dictSetdefault
        (dictSetdefault d "position_size_pct".data (JValue.jnum 20))
        "stop_loss_pct".data (JValue.jnum 5))
      "take_profit_pct".data (JValue.jnum 10))
    "risk_level".data (JValue.jstr "medium".data)

/-- The text `str(e)` interpolated into the fallback reasoning.  The exact CPython
exception text is irrelevant to every claim; it is modelled by the
payload slice that failed to decode. -/
def parseFailureMsg (resp : List Char) : List Char :=
  extract_json_str resp

/-- The conservative fallback decision returned on any parse failure. -/
def fallbackDecision (resp : List Char) : PyDict :=
  [("action".data, JValue.jstr "HOLD".data),
   ("confidence".data, JValue.jnum 0),
   ("reasoning".data,
     JValue.jstr ("AI响应解析失败: ".data ++ parseFailureMsg resp)),
   ("position_size_pct".data, JValue.jnum 0),
   ("stop_loss_pct".data, JValue.jnum 5),
   ("take_profit_pct".data, JValue.jnum 10),
   ("risk_level".data, JValue.jstr "high".data)]

/-- Embedding of `SmartMonitorDeepSeek._parse_decision`: a total function
of the model reply — every failure of extraction, decoding or validation
is caught and answered with the fallback decision. -/
def parse_decision (resp : List Char) : PyDict :=
  match decodeDecision resp with
  | some d => withDefaults d
  | none => fallbackDecision resp

/-- The dict returned by `analyze_stock_and_decide` on the success path
(`success`, `decision`, `raw_response`). -/
structure AnalyzeResult where
  success : Bool
  decision : PyDict
  raw_response : List Char

/-- Embedding of the decision post-processing of
`SmartMonitorDeepSeek.analyze_stock_and_decide`, as a function of the
model reply text: the reply is parsed by `_parse_decision` and returned
unchanged under `success = True`.  The session lookup, prompt
construction and HTTP call feed the request only; no input describing
the position's opening day reaches this post-processing, and no field of
the parsed decision is altered. -/
def analyze_stock_and_decide (aiResponse : List Char) : AnalyzeResult :=
  { success := true, decision := parse_decision aiResponse,
    raw_response := aiResponse }

/-- A bare-JSON model reply whose decision is SELL. -/
def sampleSellReply : List Char :=
  "\x7b\"action\": \"SELL\", \"confidence\": 80, \"reasoning\": \"跌破止损位\"\x7d".data

/-- A fenced model reply with a valid decision payload. -/
def sampleFencedReply : List Char :=
  "```json\n\x7b\"action\": \"BUY\", \"confidence\": 80, \"reasoning\": \"trend up\"\x7d\n```".data

/-- A prose-only model reply with no payload at all. -/
def sampleProseReply : List Char :=
  "信号不明确，建议观望".data

/-- A complete, valid decision object on its own. -/
def sampleEmbeddedObject : List Char :=
  "\x7b\"action\": \"HOLD\", \"confidence\": 50, \"reasoning\": \"wait\"\x7d".data

/-- That same object embedded in prose that also contains a stray closing
brace after it. -/
def sampleStrayBraceReply : List Char :=
  "ok ".data ++ sampleEmbeddedObject ++ " \x7d end".data

lemma countHolding_eq_zero_of_hasHolding_false {store : List StockRow}
    {code : String} (h : hasHolding store code = false) :
    countHolding store code = 0 := by
  rw [countHolding, List.countP_eq_zero]
  intro a ha hpa
  have : hasHolding store code = true := by
    rw [hasHolding, List.any_eq_true]
    exact ⟨a, ha, hpa⟩
  rw [h] at this
  exact Bool.false_ne_true this

lemma countP_singleton {α : Type _} (p : α → Bool) (a : α) :
    List.countP p [a] = if p a then 1 else 0 := by
  cases hp : p a <;> simp [List.countP, List.countP.go, hp]

lemma countHolding_applyOp_le (store : List StockRow) (op : StoreOp)
    (h : ∀ c, countHolding store c ≤ 1) :
    ∀ c, countHolding (applyOp store op) c ≤ 1 := by
  intro c
  cases op with
  | addOp code name price bd now =>
      rw [applyOp, add_stock]
      by_cases hh : hasHolding store code
      · simpa [hh] using h c
      · rw [if_neg (by simp [hh])]
        simp only [countHolding, List.countP_append, countP_singleton]
        by_cases hc : code = c
        · subst hc
          have h0 := countHolding_eq_zero_of_hasHolding_false
            (Bool.eq_false_iff.mpr hh)
          rw [countHolding] at h0
          rw [h0]
          split <;> omega
        · have h1 : countHolding store c ≤ 1 := h c
          rw [countHolding] at h1
          simp only [decide_eq_true_eq]
          rw [if_neg (by simp [hc])]
          omega
  | removeOp code reason now =>
      rw [applyOp, remove_stock]
      by_cases hh : hasHolding store code
      · rw [if_pos hh]
        simp only [countHolding, List.countP_map, List.countP_filter]
        by_cases hc : c = code
        · subst hc
          refine le_trans (le_of_eq (List.countP_eq_zero.mpr ?_))
            (Nat.zero_le 1)
          intro a _ hpa
          simp only [Function.comp, markRemoved, Bool.and_eq_true,
            decide_eq_true_eq] at hpa
          obtain ⟨hpf, _⟩ := hpa
          by_cases hg : a.stock_code = c ∧ a.status = "holding"
          · rw [if_pos hg] at hpf
            simp at hpf
          · rw [if_neg hg] at hpf
            exact hg hpf
        · have h1 : countHolding store c ≤ 1 := h c
          rw [countHolding] at h1
          refine le_trans (List.countP_mono_left ?_) h1
          intro a _ hpa
          simp only [Function.comp, markRemoved, Bool.and_eq_true,
            decide_eq_true_eq] at hpa
          obtain ⟨hpf, _⟩ := hpa
          by_cases hg : a.stock_code = code ∧ a.status = "holding"
          · rw [if_pos hg] at hpf
            simp only at hpf
            exact absurd (hpf.1.symm.trans hg.1) hc
          · rw [if_neg hg] at hpf
            simpa using hpf
      · rw [if_neg hh]
        exact h c

lemma countHolding_applyOps_le (ops : List StoreOp) :
    ∀ c, countHolding (applyOps ops) c ≤ 1 := by
  rw [applyOps]
  have main : ∀ (l : List StoreOp) (store : List StockRow),
      (∀ c, countHolding store c ≤ 1) →
      ∀ c, countHolding (l.foldl applyOp store) c ≤ 1 := by
    intro l
    induction l with
    | nil => intro store h c; exact h c
    | cons op rest ih =>
        intro store h c
        exact ih (applyOp store op) (countHolding_applyOp_le store op h) c
  exact main ops [] (fun c => by simp [countHolding])

lemma prefixDays_succ (y : Nat) :
    prefixDays (y + 1) =
      prefixDays y + 365 + (if isLeap (y + 1) then 1 else 0) := by
  rw [prefixDays, prefixDays]
  have hb : y / 100 ≤ 365 * y + y / 4 + y / 400 :=
    le_trans (Nat.div_le_self y 100) (by omega)
  have hb' : (y + 1) / 100 ≤ 365 * (y + 1) + (y + 1) / 4 + (y + 1) / 400 :=
    le_trans (Nat.div_le_self (y + 1) 100) (by omega)
  cases hL : isLeap (y + 1) with
  | false =>
      rw [isLeap, decide_eq_false_iff_not] at hL
      rw [if_neg (by simp)]
      by_cases h4 : (y + 1) % 4 = 0
      · by_cases h400 : (y + 1) % 400 = 0
        · exact absurd ⟨h4, Or.inr h400⟩ hL
        · by_cases h100 : (y + 1) % 100 = 0
          · have e4 : (y + 1) / 4 = y / 4 + 1 := by omega
            have e100 : (y + 1) / 100 = y / 100 + 1 := by omega
            have e400 : (y + 1) / 400 = y / 400 := by omega
            rw [e4, e100, e400]
            omega
          · exact absurd ⟨h4, Or.inl h100⟩ hL
      · have e4 : (y + 1) / 4 = y / 4 := by omega
        have e100 : (y + 1) / 100 = y / 100 := by omega
        have e400 : (y + 1) / 400 = y / 400 := by omega
        rw [e4, e100, e400]
        omega
  | true =>
      rw [isLeap, decide_eq_true_eq] at hL
      rw [if_pos (by simp)]
      obtain ⟨h4, hor⟩ := hL
      have e4 : (y + 1) / 4 = y / 4 + 1 := by omega
      rcases hor with h100 | h400
      · have e100 : (y + 1) / 100 = y / 100 := by omega
        have e400 : (y + 1) / 400 = y / 400 := by omega
        rw [e4, e100, e400]
        omega
      · have e100 : (y + 1) / 100 = y / 100 + 1 := by omega
        have e400 : (y + 1) / 400 = y / 400 + 1 := by omega
        rw [e4, e100, e400]
        omega

lemma prefixDays_mono {a b : Nat} (h : a ≤ b) :
    prefixDays a ≤ prefixDays b := by
  have k3 : a / 4 ≤ b / 4 := Nat.div_le_div_right h
  have k4 : a / 400 ≤ b / 400 := Nat.div_le_div_right h
  have k5 : b / 100 ≤ a / 100 + (b - a) := by
    have hb : b ≤ a + 100 * (b - a) := by omega
    calc b / 100 ≤ (a + 100 * (b - a)) / 100 := Nat.div_le_div_right hb
      _ = a / 100 + (b - a) := Nat.add_mul_div_left a (b - a) (by norm_num)
  have k1 : a / 100 ≤ 365 * a :=
    le_trans (Nat.div_le_self a 100) (by omega)
  have k2 : b / 100 ≤ 365 * b :=
    le_trans (Nat.div_le_self b 100) (by omega)
  rw [prefixDays, prefixDays]
  omega

lemma daysBeforeMonth_add (y : Nat) {m : Nat} (h1 : 1 ≤ m) (h2 : m ≤ 11) :
    daysBeforeMonth y m + daysInMonth y m = daysBeforeMonth y (m + 1) := by
  interval_cases m <;> by_cases h : isLeap y <;>
    (simp_all [daysBeforeMonth, daysInMonth]; try omega)

lemma daysBeforeMonth_mono (y : Nat) {m m' : Nat} (h1 : 1 ≤ m)
    (h2 : m ≤ m') (h3 : m' ≤ 12) :
    daysBeforeMonth y m ≤ daysBeforeMonth y m' := by
  interval_cases m' <;> interval_cases m <;> by_cases h : isLeap y <;>
    (simp_all [daysBeforeMonth]; try omega)

lemma inYear_bound (y : Nat) {m d : Nat} (h1 : 1 ≤ m) (h2 : m ≤ 12)
    (hd : d ≤ daysInMonth y m) :
    daysBeforeMonth y m + d ≤ 365 + (if isLeap y then 1 else 0) := by
  interval_cases m <;> by_cases h : isLeap y <;>
    (simp_all [daysBeforeMonth, daysInMonth]; try omega)

/-- The Python ordinal respects calendar order on valid dates. -/
lemma toordinal_mono {a b : Date} (ha : a.Valid) (hb : b.Valid)
    (hle : dateLe a b) : toordinal a ≤ toordinal b := by
  obtain ⟨hay, ham1, ham2, _, had2⟩ := ha
  obtain ⟨hby, hbm1, hbm2, hbd1, _⟩ := hb
  rw [toordinal, toordinal]
  rcases hle with hy | ⟨hyeq, hm | ⟨hmeq, hd⟩⟩
  · have h1 := inYear_bound a.year ham1 ham2 had2
    have h2 := prefixDays_succ (a.year - 1)
    rw [Nat.sub_add_cancel hay] at h2
    have h3 : prefixDays a.year ≤ prefixDays (b.year - 1) :=
      prefixDays_mono (by omega)
    have h4 : (0:Nat) ≤ daysBeforeMonth b.year b.month := Nat.zero_le _
    by_cases hL : isLeap a.year <;> simp only [hL] at h1 h2 <;> omega
  · have h1 := daysBeforeMonth_add a.year ham1 (by omega)
    have h2 := daysBeforeMonth_mono a.year (show 1 ≤ a.month + 1 by omega)
      (show a.month + 1 ≤ b.month by omega) hbm2
    rw [hyeq] at had2 h1 h2 ⊢
    omega
  · rw [hyeq, hmeq]
    omega

lemma dictGet_append_of_none {d₁ : PyDict} {k : List Char}
    (h : dictGet d₁ k = none) (d₂ : PyDict) :
    dictGet (d₁ ++ d₂) k = dictGet d₂ k := by
  induction d₁ with
  | nil => simp
  | cons p rest ih =>
      obtain ⟨k', v'⟩ := p
      simp only [dictGet] at h
      by_cases hk : k' = k
      · rw [if_pos hk] at h
        cases h
      · rw [if_neg hk] at h
        rw [List.cons_append]
        simp only [dictGet]
        rw [if_neg hk]
        exact ih h

lemma dictGet_append_of_some {d₁ : PyDict} {k : List Char} {v : JValue}
    (h : dictGet d₁ k = some v) (d₂ : PyDict) :
    dictGet (d₁ ++ d₂) k = some v := by
  induction d₁ with
  | nil => simp [dictGet] at h
  | cons p rest ih =>
      obtain ⟨k', v'⟩ := p
      simp only [dictGet] at h
      rw [List.cons_append]
      simp only [dictGet]
      by_cases hk : k' = k
      · rwa [if_pos hk] at h ⊢
      · rw [if_neg hk] at h ⊢
        exact ih h

lemma dictGet_none_of_contains_false {d : PyDict} {k : List Char}
    (h : dictContains d k = false) : dictGet d k = none := by
  rw [dictContains] at h
  cases hg : dictGet d k with
  | none => rfl
  | some v => rw [hg] at h; cases h

lemma dictGet_setdefault_same {d : PyDict} {k : List Char}
    (h : dictContains d k = false) (v : JValue) :
    dictGet (dictSetdefault d k v) k = some v := by
  rw [dictSetdefault, if_neg (by simp [h])]
  rw [dictGet_append_of_none (dictGet_none_of_contains_false h)]
  simp [dictGet]

lemma dictGet_setdefault_of_some {d : PyDict} {k : List Char} {v : JValue}
    (h : dictGet d k = some v) (k' : List Char) (v' : JValue) :
    dictGet (dictSetdefault d k' v') k = some v := by
  rw [dictSetdefault]
  split
  · exact h
  · exact dictGet_append_of_some h _

lemma dictGet_setdefault_of_none_ne {d : PyDict} {k k' : List Char}
    {v' : JValue} (hne : k' ≠ k) (h : dictGet d k = none) :
    dictGet (dictSetdefault d k' v') k = none := by
  rw [dictSetdefault]
  split
  · exact h
  · rw [dictGet_append_of_none h]
    simp [dictGet, hne]

lemma parse_decision_eq_withDefaults {resp : List Char} {d : PyDict}
    (h : decodeDecision resp = some d) :
    parse_decision resp = withDefaults d := by
  rw [parse_decision, h]

lemma withDefaults_preserves {d : PyDict} {k : List Char} {v : JValue}
    (h : dictGet d k = some v) :
    dictGet (withDefaults d) k = some v := by
  rw [withDefaults]
  exact dictGet_setdefault_of_some
    (dictGet_setdefault_of_some
      (dictGet_setdefault_of_some (dictGet_setdefault_of_some h _ _) _ _)
      _ _) _ _

/-! ## Claim theorems -/

/-- C7: the session classifier reports `can_trade = true` exactly when the
timestamp falls on a weekday (0–4) inside the morning session 9:30–11:30,
the afternoon session 13:00–14:30, or the closing window 14:30–15:00; for
weekends, the pre-open auction, the lunch break and post-close hours it is
`false`. -/
theorem canTrade_iff_session_windows (wd t : Nat) :
    (get_trading_session wd t).can_trade = true ↔
      wd < 5 ∧ ((hm 9 30 ≤ t ∧ t ≤ hm 11 30) ∨
                (hm 13 0 ≤ t ∧ t < hm 14 30) ∨
                (hm 14 30 ≤ t ∧ t ≤ hm 15 0)) := by
  unfold get_trading_session
  split_ifs <;> simp_all [hm] <;> omega

/-- C10: the boolean classifier `is_trading_time` agrees with the
`can_trade` field of `get_trading_session` at every weekday/time-of-day
pair: the two embeddings of trading-time classification are extensionally
equal. -/
theorem is_trading_time_eq_can_trade (wd t : Nat) :
    is_trading_time wd t = (get_trading_session wd t).can_trade := by
  unfold is_trading_time get_trading_session
  split_ifs <;> (simp_all [hm, decide_eq_true_eq]; try omega)

/-- C2 counterexample: after `add "600519"`, `remove "600519"`,
`add "600519"` the re-add succeeded, but the stale `"removed"` row for
the symbol is still in the store — re-adding does **not** replace it. -/
theorem readd_keeps_stale_removed_row :
    ((applyOps
        [StoreOp.addOp "600519" "贵州茅台" 1650 ⟨2026, 10, 1⟩ "t1",
         StoreOp.removeOp "600519" "止盈" "t2",
         StoreOp.addOp "600519" "贵州茅台" 1650 ⟨2026, 10, 3⟩ "t3"]).filter
      (fun r => r.stock_code = "600519" ∧ r.status = "removed")).length
      = 1 := by
  decide

/-- C2 (amended): after any sequence of `add_stock`/`remove_stock`
operations from the empty store, every symbol has at most one row with
status `"holding"`; re-adding a previously removed symbol is permitted
(the add succeeds whenever no holding row exists), but the stale
`"removed"` row persists until the next successful remove deletes it. -/
theorem holding_row_unique_after_ops :
    (∀ (ops : List StoreOp) (code : String),
        countHolding (applyOps ops) code ≤ 1) ∧
    (∀ (store : List StockRow) (code name : String) (price : ℚ)
        (bd : Date) (now : String), hasHolding store code = false →
        (add_stock store code name price bd now).1 = true) := by
  constructor
  · exact fun ops code => countHolding_applyOps_le ops code
  · intro store code name price bd now hh
    rw [add_stock, if_neg (by simp [hh])]

/-- Witness for C2: re-adding a symbol whose only row is `"removed"`
succeeds. -/
theorem holding_row_unique_after_ops_witness :
    (add_stock
      (applyOps
        [StoreOp.addOp "600519" "贵州茅台" 1650 ⟨2026, 10, 1⟩ "t1",
         StoreOp.removeOp "600519" "止盈" "t2"])
      "600519" "贵州茅台" 1650 ⟨2026, 10, 3⟩ "t3").1 = true :=
  holding_row_unique_after_ops.2
    (applyOps
        [StoreOp.addOp "600519" "贵州茅台" 1650 ⟨2026, 10, 1⟩ "t1",
         StoreOp.removeOp "600519" "止盈" "t2"])
    "600519" "贵州茅台" 1650 ⟨2026, 10, 3⟩ "t3" (by decide)

/-- C4: `remove_stock` on a symbol with no holding row fails and returns
the store unchanged; on a symbol with a holding row it succeeds, every
surviving row for the symbol is `"removed"` and carries the reason and
timestamp of this removal (so any stale removed row was deleted), and the
removed row for the symbol exists. -/
theorem remove_stock_spec (store : List StockRow) (code reason now : String)
    (hwf : StoreWf store) :
    (hasHolding store code = false →
        remove_stock store code reason now =
          (false, "股票 " ++ code ++ " 不在监控列表中", store)) ∧
    (hasHolding store code = true →
        (remove_stock store code reason now).1 = true ∧
        (∀ r ∈ (remove_stock store code reason now).2.2,
            r.stock_code = code →
              r.status = "removed" ∧ r.remove_time = some now ∧
                r.remove_reason = some reason) ∧
        (∃ r ∈ (remove_stock store code reason now).2.2,
            r.stock_code = code ∧ r.status = "removed" ∧
              r.remove_reason = some reason)) := by
  constructor
  · intro hh
    rw [remove_stock, if_neg (by simp [hh])]
  · intro hh
    rw [remove_stock, if_pos hh]
    refine ⟨rfl, ?_, ?_⟩
    · intro r hr hcode
      simp only [List.mem_map, List.mem_filter] at hr
      obtain ⟨a, ⟨hamem, hkeep⟩, hfa⟩ := hr
      simp only [decide_eq_true_eq, decide_not, Bool.not_eq_true',
        decide_eq_false_iff_not] at hkeep
      by_cases hg : a.stock_code = code ∧ a.status = "holding"
      · rw [markRemoved, if_pos hg] at hfa
        rw [← hfa]
        exact ⟨rfl, rfl, rfl⟩
      · rw [markRemoved, if_neg hg] at hfa
        subst hfa
        rcases hwf a hamem with hs | hs
        · exact absurd ⟨hcode, hs⟩ hg
        · exact absurd ⟨hcode, hs⟩ hkeep
    · rw [hasHolding, List.any_eq_true] at hh
      obtain ⟨a, hamem, hpa⟩ := hh
      rw [decide_eq_true_eq] at hpa
      refine ⟨markRemoved code reason now a, ?_, ?_⟩
      · refine List.mem_map_of_mem _ ?_
        rw [List.mem_filter]
        refine ⟨hamem, ?_⟩
        simp [hpa.2]
      · rw [markRemoved, if_pos hpa]
        exact ⟨hpa.1, rfl, rfl⟩

/-- Witness for C4: removing an absent symbol leaves the store empty and
fails; removing a held symbol succeeds. -/
theorem remove_stock_spec_witness :
    (remove_stock [] "999999" "test" "t").2.2 = [] ∧
    (remove_stock [sampleHoldingRow] "600519" "止盈" "t").1 = true := by
  constructor
  · have h := (remove_stock_spec [] "999999" "test" "t"
      (by intro r hr; cases hr)).1 (by decide)
    rw [h]
  · exact ((remove_stock_spec [sampleHoldingRow] "600519" "止盈" "t"
      (by intro r hr; simp [sampleHoldingRow] at hr; rw [hr]; left; rfl)).2
      (by decide)).1

/-- C6 counterexample: a holding position whose recorded `buy_date` lies
one day after the as-of date gets `holding_days = -1` — the computed
value can be negative, contradicting "never negative". -/
theorem update_holding_days_negative :
    (update_holding_days
        [{ sampleHoldingRow with buy_date := ⟨2026, 10, 13⟩ }]
        ⟨2026, 10, 12⟩).all (fun r => 0 ≤ r.holding_days) = false := by
  decide

/-- C6 (amended): `update_holding_days` sets, for every holding row, the
signed whole-day difference between the as-of date and `buy_date`
(non-holding rows are untouched); that value is non-negative whenever
`buy_date` is on or before the as-of date, and is monotonically
non-decreasing as the as-of date advances in calendar order — but it is
negative when `buy_date` lies in the future. -/
theorem update_holding_days_spec (store : List StockRow) (t : Date) :
    (∀ r ∈ update_holding_days store t, r.status = "holding" →
        r.holding_days = holdingDaysBetween r.buy_date t) ∧
    (∀ r ∈ store, r.status ≠ "holding" → r ∈ update_holding_days store t) ∧
    (∀ b t' : Date, b.Valid → t.Valid → t'.Valid →
        (dateLe b t → 0 ≤ holdingDaysBetween b t) ∧
        (dateLe t t' →
          holdingDaysBetween b t ≤ holdingDaysBetween b t')) := by
  refine ⟨?_, ?_, ?_⟩
  · intro r hr hstat
    rw [update_holding_days] at hr
    simp only [List.mem_map] at hr
    obtain ⟨a, hamem, hfa⟩ := hr
    by_cases hs : a.status = "holding"
    · rw [if_pos hs] at hfa
      rw [← hfa]
    · rw [if_neg hs] at hfa
      rw [← hfa] at hstat
      exact absurd hstat hs
  · intro r hr hstat
    rw [update_holding_days]
    rw [List.mem_map]
    exact ⟨r, hr, by rw [if_neg hstat]⟩
  · intro b t' hbv htv htv'
    constructor
    · intro hle
      have := toordinal_mono hbv htv hle
      rw [holdingDaysBetween]
      omega
    · intro hle
      have := toordinal_mono htv htv' hle
      rw [holdingDaysBetween, holdingDaysBetween]
      omega

/-- Witness for C6: the holding row bought 2026-10-01 evaluated on
2026-10-12 carries 11 days; the value is non-negative there and does not
decrease when re-evaluated on 2026-11-01. -/
theorem update_holding_days_spec_witness :
    ({ sampleHoldingRow with holding_days := 11 } : StockRow).holding_days
        = holdingDaysBetween ⟨2026, 10, 1⟩ ⟨2026, 10, 12⟩ ∧
    0 ≤ holdingDaysBetween ⟨2026, 10, 1⟩ ⟨2026, 10, 12⟩ ∧
    holdingDaysBetween ⟨2026, 10, 1⟩ ⟨2026, 10, 12⟩ ≤
      holdingDaysBetween ⟨2026, 10, 1⟩ ⟨2026, 11, 1⟩ :=
  ⟨(update_holding_days_spec [sampleHoldingRow] ⟨2026, 10, 12⟩).1
      { sampleHoldingRow with holding_days := 11 } (by decide) rfl,
   (((update_holding_days_spec [] ⟨2026, 10, 12⟩).2.2 ⟨2026, 10, 1⟩
      ⟨2026, 11, 1⟩ (by decide) (by decide) (by decide)).1 (by decide)),
   (((update_holding_days_spec [] ⟨2026, 10, 12⟩).2.2 ⟨2026, 10, 1⟩
      ⟨2026, 11, 1⟩ (by decide) (by decide) (by decide)).2 (by decide))⟩

/-- C3 counterexample: with a *sent* alert for `("600519", "ma_cross")`
timestamped 09:30 and the clock at 10:00 — 30 minutes later, well inside
the 60-minute cool-down window — `add_sell_alert` is not a no-op: it
inserts a second alert. -/
theorem add_sell_alert_ignores_cooldown :
    ((add_sell_alert [sampleSentAlert] "600519" "贵州茅台" "ma_cross"
        "MA5下穿MA20" (some 1648) (some 1639) (some 1661) (some 3)
        "2026-10-12 10:00:00").2).length = 2 := by
  decide

/-- C3 (amended): `add_sell_alert` is an idempotent no-op exactly when an
unsent alert with the same `(stock_code, alert_type)` pair exists;
otherwise it inserts exactly one new unsent alert — regardless of any
*sent* alerts for the pair, because the 60-minute cool-down check
(`has_recent_notification`, which reports whether any notification of the
pair lies strictly within the window) belongs to the separate
notification store and is never consulted by `add_sell_alert`. -/
theorem add_sell_alert_spec (alerts : List AlertRow)
    (code name ty reason : String) (price pma5 pma20 : Option ℚ)
    (hdays : Option Int) (now : String) :
    (alerts.any (fun a => a.stock_code = code ∧ a.alert_type = ty ∧
        a.is_sent = false) = true →
        add_sell_alert alerts code name ty reason price pma5 pma20 hdays now
          = (false, alerts)) ∧
    (alerts.any (fun a => a.stock_code = code ∧ a.alert_type = ty ∧
        a.is_sent = false) = false →
        ∃ newAlert,
          add_sell_alert alerts code name ty reason price pma5 pma20 hdays
              now = (true, alerts ++ [newAlert]) ∧
          newAlert.is_sent = false ∧ newAlert.stock_code = code ∧
          newAlert.alert_type = ty ∧ newAlert.alert_time = now) ∧
    (∀ (notifs : List NotificationRow) (stockId minutes nowMin : Int),
        has_recent_notification notifs stockId ty minutes nowMin = true ↔
          ∃ n ∈ notifs, n.stock_id = stockId ∧ n.ntype = ty ∧
            nowMin - minutes < n.triggered_at) := by
  refine ⟨?_, ?_, ?_⟩
  · intro hdup
    rw [add_sell_alert, if_pos hdup]
  · intro hdup
    rw [add_sell_alert, if_neg (by rw [hdup]; simp)]
    exact ⟨_, rfl, rfl, rfl, rfl, rfl⟩
  · intro notifs stockId minutes nowMin
    rw [has_recent_notification, List.any_eq_true]
    simp only [decide_eq_true_eq]

/-- Witness for C3: duplicate-unsent no-op on a store holding one unsent
alert for the pair, and a successful insert into the empty store. -/
theorem add_sell_alert_spec_witness :
    (add_sell_alert [{ sampleSentAlert with is_sent := false }] "600519"
        "贵州茅台" "ma_cross" "MA5下穿MA20" none none none none
        "2026-10-12 10:00:00")
      = (false, [{ sampleSentAlert with is_sent := false }]) ∧
    (add_sell_alert [] "600519" "贵州茅台" "ma_cross" "MA5下穿MA20"
        none none none none "2026-10-12 10:00:00").1 = true := by
  constructor
  · exact (add_sell_alert_spec [{ sampleSentAlert with is_sent := false }]
      "600519" "贵州茅台" "ma_cross" "MA5下穿MA20" none none none none
      "2026-10-12 10:00:00").1 (by decide)
  · obtain ⟨na, heq, -, -, -, -⟩ :=
      ((add_sell_alert_spec [] "600519" "贵州茅台" "ma_cross" "MA5下穿MA20"
        none none none none "2026-10-12 10:00:00").2.1 (by decide))
    rw [heq]

/-- C9: `clear_old_alerts` keeps an alert iff it is not both sent and
older (by string comparison of timestamps) than the cut-off; in
particular unsent alerts are never deleted, regardless of age. -/
theorem clear_old_alerts_spec (alerts : List AlertRow) (cutoff : String) :
    (∀ a ∈ alerts, a ∈ clear_old_alerts alerts cutoff ↔
        ¬(a.is_sent = true ∧ strLt a.alert_time cutoff = true)) ∧
    (∀ a ∈ alerts, a.is_sent = false →
        a ∈ clear_old_alerts alerts cutoff) := by
  constructor
  · intro a ha
    rw [clear_old_alerts, List.mem_filter]
    simp only [decide_eq_true_eq, decide_not, Bool.not_eq_true',
      decide_eq_false_iff_not]
    constructor
    · intro ⟨_, hp⟩ hcon
      exact hp ⟨hcon.2, hcon.1⟩
    · intro hp
      exact ⟨ha, fun hcon => hp ⟨hcon.2, hcon.1⟩⟩
  · intro a ha hunsent
    rw [clear_old_alerts, List.mem_filter]
    refine ⟨ha, ?_⟩
    simp only [decide_eq_true_eq, decide_not, Bool.not_eq_true',
      decide_eq_false_iff_not]
    intro hcon
    rw [hunsent] at hcon
    exact Bool.false_ne_true hcon.2

/-- Witness for C9: with cut-off `"2026-11-01"`, the old sent alert is
purged while its unsent twin survives. -/
theorem clear_old_alerts_spec_witness :
    sampleSentAlert ∉ clear_old_alerts [sampleSentAlert] "2026-11-01" ∧
    ({ sampleSentAlert with is_sent := false } : AlertRow) ∈
      clear_old_alerts [{ sampleSentAlert with is_sent := false }]
        "2026-11-01" := by
  constructor
  · intro hmem
    exact ((clear_old_alerts_spec [sampleSentAlert] "2026-11-01").1
      sampleSentAlert (by decide)).mp hmem ⟨rfl, by decide⟩
  · exact (clear_old_alerts_spec
      [{ sampleSentAlert with is_sent := false }] "2026-11-01").2
      { sampleSentAlert with is_sent := false } (by decide) rfl

/-- C5: whenever no valid decision payload can be extracted and
validated from the model reply, `_parse_decision` returns the fallback
decision — action `"HOLD"`, confidence `0`, risk level `"high"`,
reasoning annotated with the parse failure — and, being a total
function of the reply, never propagates an exception to its caller. -/
theorem parse_decision_fail_closed (resp : List Char)
    (h : decodeDecision resp = none) :
    parse_decision resp = fallbackDecision resp ∧
    dictGet (parse_decision resp) "action".data =
      some (JValue.jstr "HOLD".data) ∧
    dictGet (parse_decision resp) "confidence".data =
      some (JValue.jnum 0) ∧
    dictGet (parse_decision resp) "risk_level".data =
      some (JValue.jstr "high".data) ∧
    dictGet (parse_decision resp) "reasoning".data =
      some (JValue.jstr
        ("AI响应解析失败: ".data ++ parseFailureMsg resp)) := by
  have hp : parse_decision resp = fallbackDecision resp := by
    rw [parse_decision, h]
  exact ⟨hp, by rw [hp]; rfl, by rw [hp]; rfl, by rw [hp]; rfl,
    by rw [hp]; rfl⟩

/-- Witness for C5: a prose-only reply decodes to nothing and yields the
fail-closed HOLD decision. -/
theorem parse_decision_fail_closed_witness :
    dictGet (parse_decision sampleProseReply) "action".data =
      some (JValue.jstr "HOLD".data) ∧
    dictGet (parse_decision sampleProseReply) "confidence".data =
      some (JValue.jnum 0) ∧
    dictGet (parse_decision sampleProseReply) "risk_level".data =
      some (JValue.jstr "high".data) := by
  have h := parse_decision_fail_closed sampleProseReply (by rfl)
  exact ⟨h.2.1, h.2.2.1, h.2.2.2.1⟩

/-- C8 counterexample: `sampleStrayBraceReply` embeds (by construction,
as a substring between bare braces) `sampleEmbeddedObject`, a valid JSON
object carrying `action`, `confidence = 50` and `reasoning`; yet
`_parse_decision` returns the fallback (`confidence = 0`) because the
first-`{`-to-last-`}` span also captures the stray brace and fails
`json.loads`. -/
theorem embedded_payload_lost_to_stray_brace :
    (decodeDecision sampleEmbeddedObject).isSome = true ∧
    dictGet (parse_decision sampleEmbeddedObject) "confidence".data =
      some (JValue.jnum 50) ∧
    sampleStrayBraceReply =
      "ok ".data ++ sampleEmbeddedObject ++ " \x7d end".data ∧
    dictGet (parse_decision sampleStrayBraceReply) "confidence".data =
      some (JValue.jnum 0) := by
  refine ⟨rfl, ?_, rfl, rfl⟩
  rfl

/-- C8 (amended): when the extraction heuristic — a ```` ```json ````
fence first, else the first ```` ``` ```` fence, else the span from the
first `{` to the last `}` — selects a slice that `json.loads` parses to
an object containing `action`, `confidence` and `reasoning`,
`_parse_decision` returns exactly that object with defaults filled in
for absent optional fields (`position_size_pct` 20, `stop_loss_pct` 5.0,
`take_profit_pct` 10.0, `risk_level` `"medium"`) and all present fields
preserved.  (A reply that embeds a valid object is *not* always decoded:
surrounding stray braces or an earlier non-JSON fence divert the
heuristic, as the counterexample shows.) -/
theorem parse_decision_valid_payload (resp : List Char) (d : PyDict)
    (h : decodeDecision resp = some d) :
    parse_decision resp = withDefaults d ∧
    (∀ k v, dictGet d k = some v →
        dictGet (parse_decision resp) k = some v) ∧
    (dictContains d "position_size_pct".data = false →
        dictGet (parse_decision resp) "position_size_pct".data =
          some (JValue.jnum 20)) ∧
    (dictContains d "stop_loss_pct".data = false →
        dictGet (parse_decision resp) "stop_loss_pct".data =
          some (JValue.jnum 5)) ∧
    (dictContains d "take_profit_pct".data = false →
        dictGet (parse_decision resp) "take_profit_pct".data =
          some (JValue.jnum 10)) ∧
    (dictContains d "risk_level".data = false →
        dictGet (parse_decision resp) "risk_level".data =
          some (JValue.jstr "medium".data)) := by
  have hp := parse_decision_eq_withDefaults h
  refine ⟨hp, ?_, ?_, ?_, ?_, ?_⟩
  · intro k v hv
    rw [hp]
    exact withDefaults_preserves hv
  · intro habs
    rw [hp, withDefaults]
    exact dictGet_setdefault_of_some
      (dictGet_setdefault_of_some
        (dictGet_setdefault_of_some (dictGet_setdefault_same habs _) _ _)
        _ _) _ _
  · intro habs
    rw [hp, withDefaults]
    refine dictGet_setdefault_of_some
      (dictGet_setdefault_of_some (dictGet_setdefault_same ?_ _) _ _) _ _
    rw [dictContains,
      dictGet_setdefault_of_none_ne (by decide)
        (dictGet_none_of_contains_false habs)]
    rfl
  · intro habs
    rw [hp, withDefaults]
    refine dictGet_setdefault_of_some (dictGet_setdefault_same ?_ _) _ _
    rw [dictContains,
      dictGet_setdefault_of_none_ne (by decide)
        (dictGet_setdefault_of_none_ne (by decide)
          (dictGet_none_of_contains_false habs))]
    rfl
  · intro habs
    rw [hp, withDefaults]
    refine dictGet_setdefault_same ?_ _
    rw [dictContains,
      dictGet_setdefault_of_none_ne (by decide)
        (dictGet_setdefault_of_none_ne (by decide)
          (dictGet_setdefault_of_none_ne (by decide)
            (dictGet_none_of_contains_false habs)))]
    rfl

/-- Witness for C8: a fenced reply is decoded; its `action` survives and
the absent `position_size_pct` gets its default 20. -/
theorem parse_decision_valid_payload_witness :
    dictGet (parse_decision sampleFencedReply) "action".data =
      some (JValue.jstr "BUY".data) ∧
    dictGet (parse_decision sampleFencedReply) "position_size_pct".data =
      some (JValue.jnum 20) := by
  have hs : (decodeDecision sampleFencedReply).isSome = true := by rfl
  have h := parse_decision_valid_payload sampleFencedReply
    ((decodeDecision sampleFencedReply).get hs) (Option.some_get hs).symm
  exact ⟨h.2.1 "action".data (JValue.jstr "BUY".data) (by rfl),
    h.2.2.1 (by rfl)⟩

/-- C1 counterexample: the model replies `action = "SELL"`; the gate
returns `"SELL"` unchanged.  `analyze_stock_and_decide`'s decision
post-processing has no input describing the position's opening day, so
in particular for a position opened the same trading day no downgrade to
`"HOLD"` happens. -/
theorem analyze_passes_sell_through :
    dictGet (analyze_stock_and_decide sampleSellReply).decision
      "action".data = some (JValue.jstr "SELL".data) := by
  rfl

/-- C1 (amended): `analyze_stock_and_decide` wraps the parsed model
decision unchanged under `success = True` with the raw reply attached;
the model's `action` — `"SELL"` included, regardless of when the
position was opened — passes through verbatim.  The T+1 rule is conveyed
to the model only as prompt text; no programmatic SELL→HOLD override,
reasoning annotation, or confidence adjustment exists in the gate. -/
theorem analyze_decision_passthrough (resp : List Char) :
    (analyze_stock_and_decide resp).success = true ∧
    (analyze_stock_and_decide resp).raw_response = resp ∧
    (analyze_stock_and_decide resp).decision = parse_decision resp ∧
    (∀ d, decodeDecision resp = some d →
        ∀ v, dictGet d "action".data = some v →
          dictGet (analyze_stock_and_decide resp).decision "action".data =
            some v) := by
  refine ⟨rfl, rfl, rfl, ?_⟩
  intro d hd v hv
  show dictGet (parse_decision resp) "action".data = some v
  rw [parse_decision_eq_withDefaults hd]
  exact withDefaults_preserves hv

/-- Witness for C1: the SELL reply flows through the gate with
`success = true` and action `"SELL"` intact. -/
theorem analyze_decision_passthrough_witness :
    (analyze_stock_and_decide sampleSellReply).success = true ∧
    dictGet (analyze_stock_and_decide sampleSellReply).decision
      "action".data = some (JValue.jstr "SELL".data) := by
  have h := analyze_decision_passthrough sampleSellReply
  have hs : (decodeDecision sampleSellReply).isSome = true := by rfl
  exact ⟨h.1, h.2.2.2 ((decodeDecision sampleSellReply).get hs)
    (Option.some_get hs).symm (JValue.jstr "SELL".data) (by rfl)⟩

end AiAgentsStock
